import Mathlib

/-!
Verification of the DDPG training core (spinup/algos/pytorch/ddpg/ddpg.py)
via a shallow embedding in Lean 4.

Conventions of the embedding:
* machine floats become exact rationals;
* the five parallel numpy arrays of the replay buffer (obs_buf, obs2_buf,
  act_buf, rew_buf, done_buf), which are written and read at one shared
  index, become one list of aligned transition records;
* network parameter vectors become functions from a fixed index type;
* the numpy random number generator becomes an explicit stream of naturals,
  reduced modulo the requested bound exactly where randint bounds its draws;
* fallible operations (randint with an empty range, torch.load on a missing
  path) return Option, none marking the fatal error.
-/

/-- One stored transition: the row written across the five parallel buffer
arrays by ReplayBuffer.store (ddpg.py lines 26-33).  The done flag is kept
as a rational 0/1 value, as the source stores it in a float array. -/
structure Transition where
  obs : List ℚ
  act : List ℚ
  rew : ℚ
  obs2 : List ℚ
  done : ℚ
deriving DecidableEq, Repr

/-- The all-zero transition: the initial content of the numpy arrays
allocated with np.zeros in ReplayBuffer.__init__ (ddpg.py lines 18-24). -/
def Transition.zero : Transition :=
  { obs := [], act := [], rew := 0, obs2 := [], done := 0 }

/-- ReplayBuffer state (ddpg.py lines 13-24): a fixed-capacity store with a
write cursor ptr, a saturating logical size, and the capacity max_size. -/
structure ReplayBuffer where
  data : List Transition
  ptr : Nat
  size : Nat
  max_size : Nat
deriving Repr

/-- ReplayBuffer.__init__ (ddpg.py lines 18-24): zero-filled storage of
capacity size, ptr = 0, size = 0, max_size = size. -/
def ReplayBuffer.mk0 (size : Nat) : ReplayBuffer :=
  { data := List.replicate size Transition.zero
    ptr := 0
    size := 0
    max_size := size }

/-- ReplayBuffer.store (ddpg.py lines 26-33): write the transition at ptr,
advance ptr = (ptr+1) % max_size, saturate size at max_size. -/
def ReplayBuffer.store (b : ReplayBuffer) (tr : Transition) : ReplayBuffer :=
  { data := b.data.set b.ptr tr
    ptr := (b.ptr + 1) % b.max_size
    size := min (b.size + 1) b.max_size
    max_size := b.max_size }

/-- Fold ReplayBuffer.store over a list of transitions, oldest first. -/
def ReplayBuffer.storeAll (b : ReplayBuffer) (ts : List Transition) : ReplayBuffer :=
  ts.foldl ReplayBuffer.store b

theorem ReplayBuffer.storeAll_append (b : ReplayBuffer) (ts : List Transition)
    (t : Transition) :
    b.storeAll (ts ++ [t]) = (b.storeAll ts).store t := by
  simp [ReplayBuffer.storeAll]

theorem ReplayBuffer.store_max_size (b : ReplayBuffer) (t : Transition) :
    (b.store t).max_size = b.max_size := rfl

theorem ReplayBuffer.store_data_length (b : ReplayBuffer) (t : Transition) :
    (b.store t).data.length = b.data.length := by
  simp [ReplayBuffer.store]

theorem ReplayBuffer.storeAll_max_size (b : ReplayBuffer) (ts : List Transition) :
    (b.storeAll ts).max_size = b.max_size := by
  induction ts using List.reverseRecOn with
  | nil => rfl
  | append_singleton ts t ih =>
      rw [ReplayBuffer.storeAll_append, ReplayBuffer.store_max_size, ih]

theorem ReplayBuffer.storeAll_data_length (b : ReplayBuffer) (ts : List Transition) :
    (b.storeAll ts).data.length = b.data.length := by
  induction ts using List.reverseRecOn with
  | nil => rfl
  | append_singleton ts t ih =>
      rw [ReplayBuffer.storeAll_append, ReplayBuffer.store_data_length, ih]

theorem ReplayBuffer.storeAll_size (C : Nat) (ts : List Transition) :
    ((ReplayBuffer.mk0 C).storeAll ts).size = min ts.length C := by
  induction ts using List.reverseRecOn with
  | nil => simp [ReplayBuffer.storeAll, ReplayBuffer.mk0]
  | append_singleton ts t ih =>
      rw [ReplayBuffer.storeAll_append]
      have hms : ((ReplayBuffer.mk0 C).storeAll ts).max_size = C := by
        rw [ReplayBuffer.storeAll_max_size]; rfl
      simp only [ReplayBuffer.store, ih, hms, List.length_append, List.length_singleton]
      omega

theorem ReplayBuffer.storeAll_ptr (C : Nat) (hC : 0 < C) (ts : List Transition) :
    ((ReplayBuffer.mk0 C).storeAll ts).ptr = ts.length % C := by
  induction ts using List.reverseRecOn with
  | nil => simp [ReplayBuffer.storeAll, ReplayBuffer.mk0]
  | append_singleton ts t ih =>
      rw [ReplayBuffer.storeAll_append]
      simp only [ReplayBuffer.store, ih, ReplayBuffer.storeAll_max_size,
        List.length_append, List.length_singleton]
      simp [ReplayBuffer.mk0, Nat.add_mod]

theorem ReplayBuffer.storeAll_get (C : Nat) (hC : 0 < C) (ts : List Transition)
    (m : Nat) (hm : m < ts.length) (hrecent : ts.length ≤ m + C) :
    ((ReplayBuffer.mk0 C).storeAll ts).data[m % C]? = ts[m]? := by
  induction ts using List.reverseRecOn with
  | nil => simp at hm
  | append_singleton ts t ih =>
      rw [ReplayBuffer.storeAll_append]
      have hlen : ((ReplayBuffer.mk0 C).storeAll ts).data.length = C := by
        rw [ReplayBuffer.storeAll_data_length]
        simp [ReplayBuffer.mk0]
      have hptr : ((ReplayBuffer.mk0 C).storeAll ts).ptr = ts.length % C :=
        ReplayBuffer.storeAll_ptr C hC ts
      simp only [List.length_append, List.length_singleton] at hm hrecent
      by_cases hmn : m = ts.length
      · subst hmn
        simp only [ReplayBuffer.store, hptr]
        rw [List.getElem?_set_self (by rw [hlen]; exact Nat.mod_lt _ hC)]
        simp
      · have hmlt : m < ts.length := by omega
        have hne : m % C ≠ ts.length % C := by
          intro heq
          have hdvd : C ∣ ts.length - m := by
            have hz := Nat.sub_mod_eq_zero_of_mod_eq heq.symm
            exact Nat.dvd_of_mod_eq_zero hz
          have hpos : 0 < ts.length - m := by omega
          have hle : C ≤ ts.length - m := Nat.le_of_dvd hpos hdvd
          omega
        simp only [ReplayBuffer.store, hptr]
        rw [List.getElem?_set_ne (Ne.symm hne)]
        rw [ih hmlt (by omega)]
        rw [List.getElem?_append_left hmlt]

/-- C1.  Ring invariant of the replay buffer: after storing the list ts of
n transitions (oldest first) into a fresh buffer of capacity C > 0, the
logical size is min n C, the write cursor is n % C, and every one of the
most recent min n C transitions (store index m with n - C ≤ m < n) sits at
slot m % C, so the valid slots hold exactly the most recent min n C
transitions with the oldest overwritten first. -/
theorem ringBufferInvariant (C : Nat) (hC : 0 < C) (ts : List Transition) :
    ((ReplayBuffer.mk0 C).storeAll ts).size = min ts.length C ∧
    ((ReplayBuffer.mk0 C).storeAll ts).ptr = ts.length % C ∧
    (∀ m, m < ts.length → ts.length ≤ m + C →
      ((ReplayBuffer.mk0 C).storeAll ts).data[m % C]? = ts[m]?) := by
  refine ⟨ReplayBuffer.storeAll_size C ts, ReplayBuffer.storeAll_ptr C hC ts, ?_⟩
  intro m hm hrecent
  exact ReplayBuffer.storeAll_get C hC ts m hm hrecent

/-- Three distinct concrete transitions used to instantiate the buffer
theorems. -/
def sampleTransition (k : ℚ) : Transition :=
  { obs := [k], act := [k + 1], rew := k + 2, obs2 := [k + 3], done := 0 }

/-- Witness for C1: capacity 2, three stores.  Size saturates at 2, the
cursor wraps to 1, and slots 0 and 1 hold the second and third transitions
(the first was overwritten). -/
theorem ringBufferInvariant_witness :
    ((ReplayBuffer.mk0 2).storeAll
        [sampleTransition 10, sampleTransition 20, sampleTransition 30]).size
      = min 3 2 ∧
    ((ReplayBuffer.mk0 2).storeAll
        [sampleTransition 10, sampleTransition 20, sampleTransition 30]).ptr
      = 3 % 2 ∧
    ((ReplayBuffer.mk0 2).storeAll
        [sampleTransition 10, sampleTransition 20, sampleTransition 30]).data[2 % 2]?
      = [sampleTransition 10, sampleTransition 20, sampleTransition 30][2]? := by
  obtain ⟨h1, h2, h3⟩ :=
    ringBufferInvariant 2 (by decide)
      [sampleTransition 10, sampleTransition 20, sampleTransition 30]
  exact ⟨h1, h2, h3 2 (by decide) (by decide)⟩

/-! ## Terminal-flag correction (ddpg.py line 338) -/

/-- Line 338 of ddpg.py, inside the training loop:
d = False if ep_len==max_ep_len else d.
The environment signal d is overwritten with False whenever the episode
length has reached max_ep_len, whatever the environment reported. -/
def correctDone (ep_len max_ep_len : Nat) (d : Bool) : Bool :=
  if ep_len = max_ep_len then false else d

/-- C2 counterexample.  The claim asserts that when environment termination
coincides with ep_len = max_ep_len the stored done flag is True; the code
stores False there (ep_len = max_ep_len = 1000, environment signal true). -/
theorem correctDoneCoincidence_counterexample :
    ¬ (correctDone 1000 1000 true = true) := by decide

/-- C2 amended.  The stored done flag is False whenever ep_len = max_ep_len,
regardless of the environment signal (so also when a true termination
coincides with the horizon), and equals the environment signal whenever
ep_len is not max_ep_len. -/
theorem correctDoneAmended (ep_len max_ep_len : Nat) (d : Bool) :
    (ep_len = max_ep_len → correctDone ep_len max_ep_len d = false) ∧
    (ep_len ≠ max_ep_len → correctDone ep_len max_ep_len d = d) := by
  constructor
  · intro h
    simp [correctDone, h]
  · intro h
    simp [correctDone, h]

/-- Witness for the amended C2 at concrete inputs: truncation at the horizon
with a live environment signal stores False, and an early environment
termination is stored unchanged. -/
theorem correctDoneAmended_witness :
    correctDone 7 7 true = false ∧ correctDone 3 7 true = true :=
  ⟨(correctDoneAmended 7 7 true).1 rfl,
   (correctDoneAmended 3 7 true).2 (by decide)⟩

/-! ## Polyak averaging of target parameters (ddpg.py lines 245-276) -/

/-- A flat parameter vector, one rational per scalar parameter, indexed like
the sequence zip(ac.parameters(), ac_targ.parameters()) at line 272. -/
def Params (k : Nat) : Type := Fin k → ℚ

/-- The live and target actor-critic parameter vectors (ac and ac_targ,
ddpg.py lines 178-186). -/
structure ACPair (k : Nat) where
  ac : Params k
  ac_targ : Params k

/-- The update function of ddpg.py lines 245-276 at the parameter level.
The two optimizer steps are abstract functions of the live parameters,
carrying the dependence on the sampled batch: first the critic step
(lines 247-250), then the actor step (lines 258-261), and finally, never
skipped and only after the actor step, the in-place Polyak averaging
p_targ = polyak * p_targ + (1 - polyak) * p of lines 271-276 applied with
the just-updated live parameters. -/
def update (k : Nat) (polyak : ℚ) (qStep piStep : Params k → Params k)
    (s : ACPair k) : ACPair k :=
  let ac1 := qStep s.ac
  let ac2 := piStep ac1
  { ac := ac2
    ac_targ := fun i => polyak * s.ac_targ i + (1 - polyak) * ac2 i }

/-- A sequence of update calls, each with its own pair of optimizer steps
(its own sampled batch), as issued by the burst at ddpg.py lines 353-356. -/
def updateRun (k : Nat) (polyak : ℚ)
    (calls : List ((Params k → Params k) × (Params k → Params k)))
    (s : ACPair k) : ACPair k :=
  calls.foldl (fun st c => update k polyak c.1 c.2 st) s

theorem update_polyak_one (k : Nat) (qStep piStep : Params k → Params k)
    (s : ACPair k) : (update k 1 qStep piStep s).ac_targ = s.ac_targ := by
  funext i
  show (1 : ℚ) * s.ac_targ i + (1 - 1) * piStep (qStep s.ac) i = s.ac_targ i
  ring

theorem updateRun_polyak_one (k : Nat)
    (calls : List ((Params k → Params k) × (Params k → Params k)))
    (s : ACPair k) : (updateRun k 1 calls s).ac_targ = s.ac_targ := by
  induction calls generalizing s with
  | nil => rfl
  | cons c rest ih =>
      show (updateRun k 1 rest (update k 1 c.1 c.2 s)).ac_targ = s.ac_targ
      rw [ih, update_polyak_one]

/-- C3.  Target smoothing: after one update call each target parameter is
polyak times its previous value plus (1 - polyak) times the just-updated
live parameter (the Polyak step runs once per call, after the actor step);
with polyak = 1 the target parameters survive any sequence of update calls
unchanged; with polyak = 0 one update call makes the target parameters
equal the live parameters. -/
theorem polyakTargetSmoothing (k : Nat) (polyak : ℚ)
    (qStep piStep : Params k → Params k) (s : ACPair k)
    (calls : List ((Params k → Params k) × (Params k → Params k))) :
    (∀ i, (update k polyak qStep piStep s).ac_targ i
        = polyak * s.ac_targ i
          + (1 - polyak) * (update k polyak qStep piStep s).ac i) ∧
    (updateRun k 1 calls s).ac_targ = s.ac_targ ∧
    (update k 0 qStep piStep s).ac_targ = (update k 0 qStep piStep s).ac := by
  refine ⟨fun i => rfl, updateRun_polyak_one k calls s, ?_⟩
  funext i
  show (0 : ℚ) * s.ac_targ i + (1 - 0) * piStep (qStep s.ac) i
      = piStep (qStep s.ac) i
  ring

/-! ## Batch sampling (ddpg.py lines 35-42) -/

/-- np.random.randint(0, hi, size=count) at ddpg.py line 36, the RNG being
an explicit stream g of naturals: draw j is g j reduced into [0, hi).
numpy raises ValueError on the empty range hi = 0, modelled as none. -/
def randint (g : Nat → Nat) (hi count : Nat) : Option (List Nat) :=
  if hi = 0 then none
  else some ((List.range count).map fun j => g j % hi)

/-- ReplayBuffer.sample_batch (ddpg.py lines 35-42): draw batch_size indices
from [0, size) with replacement and return the aligned stored rows at those
indices. -/
def ReplayBuffer.sample_batch (b : ReplayBuffer) (batch_size : Nat)
    (g : Nat → Nat) : Option (List Transition) :=
  (randint g b.size batch_size).map fun idxs =>
    idxs.map fun i => b.data.getD i Transition.zero

/-- C4.  Sampling domain: on an empty buffer sample_batch fails (fatal,
no graceful degradation); on a buffer with size k > 0 it returns exactly
batch_size rows, every row being the stored entry at some index below k
(indices drawn with replacement, so duplicates across rows are possible). -/
theorem sampleBatchDomain (b : ReplayBuffer) (batch_size : Nat)
    (g : Nat → Nat) :
    (b.size = 0 → b.sample_batch batch_size g = none) ∧
    (0 < b.size → ∃ rows, b.sample_batch batch_size g = some rows ∧
      rows.length = batch_size ∧
      ∀ j, j < batch_size →
        ∃ i, i < b.size ∧ rows[j]? = some (b.data.getD i Transition.zero)) := by
  constructor
  · intro h
    simp [ReplayBuffer.sample_batch, randint, h]
  · intro h
    have hne : b.size ≠ 0 := Nat.pos_iff_ne_zero.mp h
    refine ⟨(List.range batch_size).map fun j => b.data.getD (g j % b.size) Transition.zero,
      ?_, by simp, ?_⟩
    · simp [ReplayBuffer.sample_batch, randint, hne, List.map_map]
    · intro j hj
      refine ⟨g j % b.size, Nat.mod_lt _ h, ?_⟩
      rw [List.getElem?_map, List.getElem?_range hj]
      rfl

/-- Witness for C4: a fresh buffer of capacity 2 (size 0) fails to sample,
and after one store (size 1) a batch of three rows is produced, each row a
stored entry at an index below 1. -/
theorem sampleBatchDomain_witness :
    (ReplayBuffer.mk0 2).sample_batch 3 (fun j => j + 5) = none ∧
    ∃ rows,
      ((ReplayBuffer.mk0 2).storeAll [sampleTransition 10]).sample_batch 3
          (fun j => j + 5) = some rows ∧
      rows.length = 3 ∧
      ∀ j, j < 3 → ∃ i,
        i < ((ReplayBuffer.mk0 2).storeAll [sampleTransition 10]).size ∧
        rows[j]? = some
          (((ReplayBuffer.mk0 2).storeAll [sampleTransition 10]).data.getD i
            Transition.zero) := by
  constructor
  · exact (sampleBatchDomain (ReplayBuffer.mk0 2) 3 (fun j => j + 5)).1 rfl
  · exact (sampleBatchDomain ((ReplayBuffer.mk0 2).storeAll [sampleTransition 10]) 3
      (fun j => j + 5)).2 (by decide)

/-! ## Best-checkpoint saving (ddpg.py lines 312, 384-387) -/

/-- The comparison avg > prev_best (line 384), with none standing for the
initial prev_best = float(-inf) of line 312. -/
def bestLt (pb : Option ℚ) (r : ℚ) : Bool :=
  match pb with
  | none => true
  | some x => decide (x < r)

/-- The accumulator step prev_best = max(prev_best, avg) (line 387), with
none standing for float(-inf). -/
def bestMax (pb : Option ℚ) (r : ℚ) : Option ℚ :=
  match pb with
  | none => some r
  | some x => some (max x r)

/-- The per-epoch save decisions of ddpg.py lines 384-387, folded over the
sequence of per-epoch average training returns: save exactly when
avg > prev_best, then update prev_best to max(prev_best, avg). -/
def bestSaveFlags (pb : Option ℚ) : List ℚ → List Bool
  | [] => []
  | r :: rest => bestLt pb r :: bestSaveFlags (bestMax pb r) rest

theorem bestSaveFlags_length (pb : Option ℚ) (rets : List ℚ) :
    (bestSaveFlags pb rets).length = rets.length := by
  induction rets generalizing pb with
  | nil => rfl
  | cons r rest ih => simp [bestSaveFlags, ih]

theorem bestLt_bestMax (pb : Option ℚ) (r x : ℚ) :
    bestLt (bestMax pb r) x = true ↔ (bestLt pb x = true ∧ r < x) := by
  cases pb with
  | none => simp [bestLt, bestMax]
  | some a => simp [bestLt, bestMax, max_lt_iff]

theorem bestSaveFlags_getD (pb : Option ℚ) (rets : List ℚ) (i : Nat)
    (hi : i < rets.length) :
    ((bestSaveFlags pb rets).getD i false = true ↔
      (bestLt pb (rets.getD i 0) = true ∧
        ∀ j, j < i → rets.getD j 0 < rets.getD i 0)) := by
  induction rets generalizing pb i with
  | nil => simp at hi
  | cons r rest ih =>
      cases i with
      | zero =>
          simp [bestSaveFlags]
      | succ n =>
          have hn : n < rest.length := by
            simpa using Nat.lt_of_succ_lt_succ hi
          have step : (bestSaveFlags pb (r :: rest)).getD (n + 1) false
              = (bestSaveFlags (bestMax pb r) rest).getD n false := by
            simp [bestSaveFlags]
          rw [step, ih (bestMax pb r) n hn]
          have hget : ∀ m : Nat, (r :: rest).getD (m + 1) 0 = rest.getD m 0 := by
            intro m
            simp
          constructor
          · rintro ⟨hb, hall⟩
            rw [bestLt_bestMax] at hb
            refine ⟨by simpa using hb.1, ?_⟩
            intro j hj
            cases j with
            | zero => simpa using hb.2
            | succ m =>
                have hm : m < n := Nat.lt_of_succ_lt_succ hj
                simpa using hall m hm
          · rintro ⟨hb, hall⟩
            rw [bestLt_bestMax]
            refine ⟨⟨by simpa using hb, ?_⟩, ?_⟩
            · have h0 := hall 0 (Nat.succ_pos n)
              simpa using h0
            · intro j hj
              have hj1 := hall (j + 1) (Nat.succ_lt_succ hj)
              simpa using hj1

/-- C5.  Best-checkpoint monotonicity: the save flags list has one entry per
epoch; starting from prev_best = -inf, epoch i gets a save exactly when its
average training return strictly exceeds every earlier average of the run
(for the first epoch the comparison against -inf always saves, and ties
never save); on the return sequence [5, 3, 7, 7, 9] the saves land exactly
at epochs 1, 3 and 5. -/
theorem bestCheckpointMonotonicity (rets : List ℚ) (i : Nat)
    (hi : i < rets.length) :
    (bestSaveFlags none rets).length = rets.length ∧
    ((bestSaveFlags none rets).getD i false = true ↔
      ∀ j, j < i → rets.getD j 0 < rets.getD i 0) ∧
    bestSaveFlags none [5, 3, 7, 7, 9] = [true, false, true, false, true] := by
  refine ⟨bestSaveFlags_length none rets, ?_, by decide⟩
  rw [bestSaveFlags_getD none rets i hi]
  simp [bestLt]

/-- Witness for C5 at the sequence of the claim: epoch 4 (index 3) ties the
running best 7 and is not saved, while the full flag list saves exactly
epochs 1, 3 and 5. -/
theorem bestCheckpointMonotonicity_witness :
    (bestSaveFlags none [5, 3, 7, 7, 9]).length = 5 ∧
    ¬ ((bestSaveFlags none [(5 : ℚ), 3, 7, 7, 9]).getD 3 false = true) ∧
    bestSaveFlags none [5, 3, 7, 7, 9] = [true, false, true, false, true] := by
  obtain ⟨hlen, hiff, hconc⟩ :=
    bestCheckpointMonotonicity [5, 3, 7, 7, 9] 3 (by decide)
  refine ⟨by simpa using hlen, ?_, hconc⟩
  intro h
  have hall := hiff.mp h
  have h2 := hall 2 (by decide)
  norm_num at h2

/-! ## Action selection and clipping (ddpg.py lines 278-282, 317-323) -/

/-- np.clip(x, lo, hi) componentwise (ddpg.py line 282): values below lo go
to lo, values above hi go to hi. -/
def npClip (x lo hi : ℚ) : ℚ := min hi (max lo x)

/-- get_action (ddpg.py lines 278-282): the deterministic actor output plus
noise_scale times a standard normal draw, each component clipped into
[0, act_limit].  The actor output a and the noise draw are abstract
componentwise inputs, so the theorems quantify over every possible noise
magnitude. -/
def get_action (d : Nat) (a noise : Fin d → ℚ) (noise_scale act_limit : ℚ) :
    Fin d → ℚ :=
  fun i => npClip (a i + noise_scale * noise i) 0 act_limit

/-- C6.  Asymmetric action clipping: whenever act_limit ≥ 0, every component
of the action returned by get_action lies in the closed interval
[0, act_limit], for every observation (actor output), every Gaussian draw of
any magnitude and every noise scale. -/
theorem actionClipSafety (d : Nat) (a noise : Fin d → ℚ)
    (noise_scale act_limit : ℚ) (hL : 0 ≤ act_limit) :
    ∀ i, 0 ≤ get_action d a noise noise_scale act_limit i ∧
      get_action d a noise noise_scale act_limit i ≤ act_limit := by
  intro i
  constructor
  · exact le_min hL (le_max_left 0 _)
  · exact min_le_left _ _

/-- Witness for C6: one action dimension, actor output 5, noise scale 3 and
an extreme noise draw of 100; the clipped action stays inside [0, 2]. -/
theorem actionClipSafety_witness :
    0 ≤ get_action 1 (fun _ => 5) (fun _ => 100) 3 2 ⟨0, by decide⟩ ∧
    get_action 1 (fun _ => 5) (fun _ => 100) 3 2 ⟨0, by decide⟩ ≤ 2 :=
  actionClipSafety 1 (fun _ => 5) (fun _ => 100) 3 2 (by norm_num) ⟨0, by decide⟩

/-- The action-selection branch of the training loop (ddpg.py lines
317-323): the noisy policy action is used when t > start_steps, otherwise a
uniform random sample from the action space is used. -/
def selectAction (t start_steps : Nat) (policyAction randomAction : List ℚ) :
    List ℚ :=
  if t > start_steps then policyAction else randomAction

/-- C7.  Evaluation of the action-selection branch at the failing input
t = start_steps = 10000: the branch still takes the uniform random action,
so the random phase lasts start_steps + 1 steps (t = 0 through start_steps
inclusive), not the start_steps steps that the claim and the docstring of
start_steps describe; the policy is first used at t = start_steps + 1. -/
theorem selectActionOffByOne :
    selectAction 10000 10000 [1] [2] = [2] ∧
    selectAction 10001 10000 [1] [2] = [1] := by
  constructor
  · rfl
  · rfl

/-! ## Eval-mode checkpoint restore (ddpg.py lines 195-204) -/

/-- The checkpoint bundle written by save_model (ddpg.py lines 299-304):
epoch number, the full actor-critic parameter state, and the internal state
of both optimizers.  State dicts are flat rational vectors here. -/
structure Checkpoint where
  epoch : Nat
  model_state_dict : List ℚ
  pi_optimizer_state_dict : List ℚ
  q_optimizer_state_dict : List ℚ
deriving DecidableEq, Repr

/-- The restored eval-mode state: live parameters ac, target parameters
ac_targ, and the two optimizer states. -/
structure RestoredState where
  ac : List ℚ
  ac_targ : List ℚ
  pi_optimizer : List ℚ
  q_optimizer : List ℚ
deriving DecidableEq, Repr

/-- Eval-mode checkpoint load (ddpg.py lines 195-204): torch.load on the
declared path (none models a missing file, on which torch.load raises and
the run dies with nothing restored), then ac.load_state_dict and
ac_targ.load_state_dict both from the same model_state_dict of the bundle,
and the two optimizers from their stored states. -/
def loadEvalCheckpoint : Option Checkpoint → Option RestoredState
  | none => none
  | some ck => some
      { ac := ck.model_state_dict
        ac_targ := ck.model_state_dict
        pi_optimizer := ck.pi_optimizer_state_dict
        q_optimizer := ck.q_optimizer_state_dict }

/-- C9.  Checkpoint restore: a missing checkpoint path is fatal with no
partial restore; a present bundle restores the live parameters, the target
parameters and both optimizer states, and leaves the target parameters
equal to the live ones because both are loaded from the same
model_state_dict rather than the target being re-derived. -/
theorem evalCheckpointRestore :
    loadEvalCheckpoint none = none ∧
    ∀ ck : Checkpoint, ∃ s : RestoredState,
      loadEvalCheckpoint (some ck) = some s ∧
      s.ac = ck.model_state_dict ∧
      s.ac_targ = s.ac ∧
      s.pi_optimizer = ck.pi_optimizer_state_dict ∧
      s.q_optimizer = ck.q_optimizer_state_dict := by
  refine ⟨rfl, fun ck => ⟨_, rfl, rfl, rfl, rfl, rfl⟩⟩

/-! ## Scalar action bound taken from the first component (ddpg.py line 174) -/

/-- act_limit (ddpg.py line 174): env.action_space.high[0], the first
component of the high vector; the source comments that this critically
assumes all dimensions share the same bound. -/
def actLimitOf (high : List ℚ) : ℚ := high.headD 0

/-- C10.  The clipping bound of get_action is the single scalar high[0],
applied to every component: every produced component is at most high[0];
when all components of high agree with high[0] and that bound is
nonnegative, every component also lies within its own true bound; and the
guarantee fails for unequal bounds, witnessed by high = [1, 0], where the
produced second component exceeds its true bound 0. -/
theorem actLimitScalar (high : List ℚ) (a noise : Fin high.length → ℚ)
    (noise_scale : ℚ) :
    (∀ i, get_action high.length a noise noise_scale (actLimitOf high) i
        ≤ actLimitOf high) ∧
    ((∀ i : Fin high.length, high.getD i 0 = actLimitOf high) →
      0 ≤ actLimitOf high →
      ∀ i : Fin high.length,
        0 ≤ get_action high.length a noise noise_scale (actLimitOf high) i ∧
        get_action high.length a noise noise_scale (actLimitOf high) i
          ≤ high.getD i 0) ∧
    (∃ (h2 : List ℚ) (a2 n2 : Fin h2.length → ℚ) (ns2 : ℚ)
        (j : Fin h2.length),
      h2.getD j 0 < get_action h2.length a2 n2 ns2 (actLimitOf h2) j) := by
  refine ⟨fun i => min_le_left _ _, ?_, ?_⟩
  · intro hall hpos i
    refine ⟨le_min hpos (le_max_left 0 _), ?_⟩
    rw [hall i]
    exact min_le_left _ _
  · refine ⟨[1, 0], fun _ => 1, fun _ => 0, 0, ⟨1, by decide⟩, ?_⟩
    show (0 : ℚ) < npClip (1 + 0 * 0) 0 (actLimitOf [1, 0])
    norm_num [npClip, actLimitOf]

/-- Witness for C10 on high = [2, 2] (all bounds equal and nonnegative):
each of the two components stays within its own bound. -/
theorem actLimitScalar_witness :
    0 ≤ get_action 2 (fun _ => 5) (fun _ => 7) 1 (actLimitOf [2, 2])
        ⟨1, by decide⟩ ∧
    get_action 2 (fun _ => 5) (fun _ => 7) 1 (actLimitOf [2, 2]) ⟨1, by decide⟩
      ≤ ([2, 2] : List ℚ).getD 1 0 := by
  have h := (actLimitScalar [2, 2] (fun _ => 5) (fun _ => 7) 1).2.1
    (by decide) (by norm_num [actLimitOf]) ⟨1, by decide⟩
  exact h

/-! ## Update scheduling in the main training loop (ddpg.py lines 306-356) -/

/-- Counters instrumenting the main training loop: the number of environment
steps executed, the total number of update calls issued (each drawing a
fresh batch at line 355), and the per-step record of how many update calls
each step issued. -/
structure TrainCounters where
  envSteps : Nat
  gradSteps : Nat
  updatesPerStep : List Nat
deriving DecidableEq, Repr

/-- The update handling of ddpg.py lines 352-356 at step t: when
t ≥ update_after and t % update_every == 0, the inner for loop runs
update_every times, each iteration issuing one sample_batch and one update
call; otherwise no update call happens.  Returns the number of update calls
issued, counted by folding over the iterations of the inner loop. -/
def updateBurst (update_after update_every t : Nat) : Nat :=
  if update_after ≤ t ∧ t % update_every = 0 then
    (List.range update_every).foldl (fun acc _ => acc + 1) 0
  else 0

/-- One iteration of the main loop body, instrumented (ddpg.py lines
315-356): one environment step, then the conditional update burst. -/
def loopStep (update_after update_every : Nat) (c : TrainCounters)
    (t : Nat) : TrainCounters :=
  { envSteps := c.envSteps + 1
    gradSteps := c.gradSteps + updateBurst update_after update_every t
    updatesPerStep := c.updatesPerStep ++ [updateBurst update_after update_every t] }

/-- The main training loop (ddpg.py lines 306-315): for t in
range(steps_per_epoch * epochs), with no break and no other exit path. -/
def trainLoop (steps_per_epoch epochs update_after update_every : Nat) :
    TrainCounters :=
  (List.range (steps_per_epoch * epochs)).foldl
    (loopStep update_after update_every) ⟨0, 0, []⟩

theorem foldl_count (l : List Nat) (k : Nat) :
    l.foldl (fun acc _ => acc + 1) k = k + l.length := by
  induction l generalizing k with
  | nil => rfl
  | cons x xs ih => simp [List.foldl_cons, ih]; omega

theorem updateBurst_eq (update_after update_every t : Nat) :
    updateBurst update_after update_every t
      = if update_after ≤ t ∧ t % update_every = 0 then update_every else 0 := by
  unfold updateBurst
  split
  · rw [foldl_count]
    simp
  · rfl

theorem loopRun_envSteps (update_after update_every : Nat) (l : List Nat)
    (c : TrainCounters) :
    (l.foldl (loopStep update_after update_every) c).envSteps
      = c.envSteps + l.length := by
  induction l generalizing c with
  | nil => rfl
  | cons t ts ih => simp [List.foldl_cons, ih, loopStep]; omega

theorem loopRun_updates (update_after update_every : Nat) (l : List Nat)
    (c : TrainCounters) :
    (l.foldl (loopStep update_after update_every) c).updatesPerStep
      = c.updatesPerStep ++ l.map (updateBurst update_after update_every) := by
  induction l generalizing c with
  | nil => simp
  | cons t ts ih => simp [List.foldl_cons, ih, loopStep]

theorem loopRun_gradSteps (update_after update_every : Nat) (l : List Nat)
    (c : TrainCounters) :
    (l.foldl (loopStep update_after update_every) c).gradSteps
      = c.gradSteps + (l.map (updateBurst update_after update_every)).sum := by
  induction l generalizing c with
  | nil => simp
  | cons t ts ih => simp [List.foldl_cons, ih, loopStep]; omega

/-- C8.  Update scheduling: the loop executes exactly steps_per_epoch *
epochs environment steps (a fold over range with no other exit); the step
at index t issues exactly update_every consecutive update calls when
t ≥ update_after and t % update_every = 0 and issues none otherwise; and
the total number of update calls is the sum of those per-step bursts. -/
theorem updateScheduleInvariant
    (steps_per_epoch epochs update_after update_every : Nat)
    (hue : 0 < update_every) :
    (trainLoop steps_per_epoch epochs update_after update_every).envSteps
      = steps_per_epoch * epochs ∧
    (trainLoop steps_per_epoch epochs update_after update_every).updatesPerStep.length
      = steps_per_epoch * epochs ∧
    (∀ t, t < steps_per_epoch * epochs →
      (trainLoop steps_per_epoch epochs update_after update_every).updatesPerStep[t]?
        = some (if update_after ≤ t ∧ t % update_every = 0
            then update_every else 0)) ∧
    (trainLoop steps_per_epoch epochs update_after update_every).gradSteps
      = ((List.range (steps_per_epoch * epochs)).map
          (fun t => if update_after ≤ t ∧ t % update_every = 0
            then update_every else 0)).sum := by
  have hup : (trainLoop steps_per_epoch epochs update_after update_every).updatesPerStep
      = (List.range (steps_per_epoch * epochs)).map
          (updateBurst update_after update_every) := by
    unfold trainLoop
    rw [loopRun_updates]
    simp
  refine ⟨?_, ?_, ?_, ?_⟩
  · unfold trainLoop
    rw [loopRun_envSteps]
    simp
  · rw [hup]
    simp
  · intro t ht
    rw [hup, List.getElem?_map, List.getElem?_range ht]
    simp [updateBurst_eq]
  · unfold trainLoop
    rw [loopRun_gradSteps]
    simp only [Nat.zero_add]
    congr 1
    apply List.map_congr_left
    intro t _
    exact updateBurst_eq update_after update_every t

/-- Witness for C8 at steps_per_epoch = 3, epochs = 2, update_after = 2,
update_every = 2: six environment steps; step 4 issues a burst of two
update calls and step 3 issues none. -/
theorem updateScheduleInvariant_witness :
    (trainLoop 3 2 2 2).envSteps = 3 * 2 ∧
    (trainLoop 3 2 2 2).updatesPerStep[4]? = some 2 ∧
    (trainLoop 3 2 2 2).updatesPerStep[3]? = some 0 := by
  obtain ⟨h1, h2, h3, h4⟩ := updateScheduleInvariant 3 2 2 2 (by decide)
  refine ⟨h1, ?_, ?_⟩
  · have := h3 4 (by decide)
    simpa using this
  · have := h3 3 (by decide)
    simpa using this
